import Mathlib

/-!
A shallow embedding of the archive-weibo downloader.

The source is three Rust files: `src/main.rs` (orchestration via a stream with
at most 20 in-flight downloads), `src/weibo_post.rs` (the post data model,
paginated fetch, per-post download, and the video-link resolver `is_video`),
and `src/weibo_download.rs` (a near-duplicate of the same design; the two
copies agree on every behaviour modelled here, so a single embedding covers
both).

Modelling conventions:
* Machine integers (`u64`) become `Nat`; no arithmetic in the source can
  overflow a `u64` in the ways the claims exercise, and no wrapping is used.
* Fallible Rust code (`Result`, `?`) becomes `Except`; a Rust panic
  (`.unwrap()` on `None`) is a distinct outcome, never an `Except.error`.
* Effectful code (HTTP requests, filesystem writes, spawning the external
  video helper) is modelled by an explicit `World` of oracles plus a trace of
  `Action`s the code performs, in program order.
* `String::starts_with` and the `url` crate's query parsing are embedded as
  executable character-list functions (`strStartsWith`, `queryPairs`); the
  query model covers percent-free inputs, which is all the program's string
  prefixes and the claims exercise.
* The unbounded `for page in 1..` fetch loop is embedded with explicit fuel;
  `none` marks running out of fuel (divergence), and theorems quantify over
  sufficient fuel.
-/

namespace ArchiveWeibo

/-- Author record, from `struct WeiboUser` (fields `id`, `screen_name`,
`avatar_hd`). -/
structure WeiboUser where
  id : Nat
  screen_name : String
  avatar : String
  deriving DecidableEq, Repr

/-- One entry of `url_struct`, from `struct WeiboUrl` (fields `url_title`,
`long_url`). -/
structure WeiboUrl where
  title : String
  url : String
  deriving DecidableEq, Repr

/-- The parsed `created_at` timestamp: an `OffsetDateTime` of the `time`
crate, holding a civil date-time plus an explicit UTC offset. -/
structure DateTime where
  year : Nat
  month : Nat
  day : Nat
  hour : Nat
  minute : Nat
  second : Nat
  offHour : Int
  offMinute : Nat
  deriving DecidableEq, Repr

/-- One timeline post, from `struct WeiboPost` (serde fields `created_at`,
`id`, `user`, `text_raw`, `pic_ids`, `url_struct`; `url_struct` is optional in
the API response). -/
structure WeiboPost where
  created_at : DateTime
  id : Nat
  user : WeiboUser
  text : String
  pictures : List String
  urls : Option (List WeiboUrl)
  deriving DecidableEq, Repr

/-! ### String helpers (embedding `String::starts_with`, `format!` padding,
and the `url` crate's query parsing) -/

/-- Embeds Rust `s.starts_with(p)`. -/
def strStartsWith (s p : String) : Bool :=
  p.data.isPrefixOf s.data

/-- Characters of `l` strictly before the first occurrence of `c`. -/
def takeUntil (c : Char) : List Char → List Char
  | [] => []
  | x :: xs => if x = c then [] else x :: takeUntil c xs

/-- Characters of `l` strictly after the first occurrence of `c`, or `none`
when `c` does not occur. -/
def dropAfter (c : Char) : List Char → Option (List Char)
  | [] => none
  | x :: xs => if x = c then some xs else dropAfter c xs

/-- Split on every occurrence of `c` (the groups do not contain `c`). -/
def splitOnChar (c : Char) : List Char → List (List Char)
  | [] => [[]]
  | x :: xs =>
    if x = c then [] :: splitOnChar c xs
    else
      match splitOnChar c xs with
      | [] => [[x]]
      | g :: gs => (x :: g) :: gs

/-- The query component of `url`: what lies after the first `?` and before
the first `#`, as in the `url` crate. Empty when there is no `?`. -/
def queryChars (url : String) : List Char :=
  match dropAfter '?' (takeUntil '#' url.data) with
  | some rest => rest
  | none => []

/-- Embeds `Url::parse(url).query_pairs()` for percent-free URLs: split the
query on `&`, then split each group at its first `=` into key and value (a
group with no `=` is a key with empty value). -/
def queryPairs (url : String) : List (String × String) :=
  let q := queryChars url
  if q.isEmpty then []
  else
    (splitOnChar '&' q).map fun kv =>
      (⟨takeUntil '=' kv⟩,
       match dropAfter '=' kv with
       | some v => (⟨v⟩ : String)
       | none => "")

/-- Embeds `query_pairs().find(|f| f.0 == "fid")`, keeping the value. -/
def findFid (url : String) : Option String :=
  ((queryPairs url).find? fun pr => pr.1 = "fid").map Prod.snd

/-! ### The Video Link Resolver (`fn is_video`) -/

/-- The legacy video-host prefix tested first in `is_video`. -/
def legacyHost : String := "https://video.weibo.com"

/-- The canonical video-page prefix tested second in `is_video`. -/
def canonicalShow : String := "https://weibo.com/tv/show/"

/-- Embeds `fn is_video(u: &WeiboUrl) -> Option<Cow<str>>`. The source
`.unwrap()`s the `fid` lookup, so a legacy-host URL without an `fid` query
parameter panics; the panic is embedded as `Except.error ()`. -/
def is_video (u : WeiboUrl) : Except Unit (Option String) :=
  if strStartsWith u.url legacyHost then
    match findFid u.url with
    | some fid =>
        .ok (some ("https://weibo.com/tv/show/" ++ fid ++ "?from=old_pc_videoshow"))
    | none => .error ()
  else if strStartsWith u.url canonicalShow then
    .ok (some u.url)
  else
    .ok none

/-! ### The Post Fetcher (`WeiboPost::get_posts`) -/

/-- One HTTP GET request as the fetch loop builds it: base url, query
parameters in order, headers. -/
structure Request where
  url : String
  query : List (String × String)
  headers : List (String × String)
  deriving DecidableEq, Repr

/-- The fixed listing endpoint (`static URL` in the source). -/
def mymblogUrl : String := "https://weibo.com/ajax/statuses/mymblog"

/-- The request the loop issues for one page: `uid` and `page` as query
parameters and the session cookie in a `COOKIE: SUB=<cookie>` header. -/
def pageRequest (uid : Nat) (page : Nat) (cookie : String) : Request :=
  { url := mymblogUrl
    query := [("uid", toString uid), ("page", toString page)]
    headers := [("Cookie", "SUB=" ++ cookie)] }

/-- The network oracle for the listing endpoint. A request either fails
(transport failure, non-success status, or JSON decode failure — all
collapsed by `?` into one error, kept as a message string) or decodes to a
`Mymblog` whose `.data.list` is the page's post list. -/
def FetchNet : Type := Request → Except String (List WeiboPost)

/-- Embeds the `for page in 1..` loop of `get_posts`, with explicit fuel;
`none` means the fuel ran out while the source loop would still be running.
Returns the requests issued in order together with the loop's result; the
source accumulates posts with `Vec::extend`, embedded as `++`. -/
def get_postsAux (net : FetchNet) (uid : Nat) (cookie : String) :
    Nat → Nat → Option (List Request × Except String (List WeiboPost))
  | 0, _ => none
  | fuel + 1, page =>
    let r := pageRequest uid page cookie
    match net r with
    | .error e => some ([r], .error e)
    | .ok l =>
      if l.isEmpty then some ([r], .ok [])
      else
        match get_postsAux net uid cookie fuel (page + 1) with
        | none => none
        | some (rs, .error e) => some (r :: rs, .error e)
        | some (rs, .ok posts) => some (r :: rs, .ok (l ++ posts))

/-- Embeds `WeiboPost::get_posts`: run the page loop from page 1. The
session cookie comes from the auth collaborator (`weibo_cookie`), which the
spec treats as external; it is a parameter here. -/
def get_posts (net : FetchNet) (uid : Nat) (cookie : String) (fuel : Nat) :
    Option (List Request × Except String (List WeiboPost)) :=
  get_postsAux net uid cookie fuel 1

/-- The page requests for pages `page, page+1, ..., page+n-1`, in order. -/
def pageSeq (uid : Nat) (cookie : String) : Nat → Nat → List Request
  | _, 0 => []
  | page, n + 1 => pageRequest uid page cookie :: pageSeq uid cookie (page + 1) n

/-- Concatenation of the page responses for pages `page, ..., page+n-1`. -/
def postsConcat (resp : Nat → List WeiboPost) : Nat → Nat → List WeiboPost
  | _, 0 => []
  | page, n + 1 => resp page ++ postsConcat resp (page + 1) n

/-! ### The Per-Post Downloader (`WeiboPost::download`) and its world

The downloader's effects are recorded as a trace of `Action`s in program
order; the `World` supplies the oracles the effects consult (directory
existence, image bytes, write failures, the external helper's exit status). -/

/-- One observable effect of the per-post downloader. -/
inductive Action where
  | createDir (path : String)
  | fetchImage (url : String)
  | writeFile (path : String) (content : String)
  | runHelper (name : String) (outDir : String) (url : String)
  deriving DecidableEq, Repr

/-- Per-post errors, mirroring the `anyhow` errors the source produces:
network failures, filesystem failures (kept with the path), the explicit
`Could not write to <path>` message of `download_image`, and the explicit
`Unable to download <url>` message of `download_video`. -/
inductive Err where
  | net (msg : String)
  | io (path : String)
  | couldNotWrite (path : String)
  | unableToDownload (url : String)
  deriving DecidableEq, Repr

/-- Outcome of one per-post download: success, an error returned to the
caller, or a panic (which in the source unwinds the whole process). -/
inductive DlRes where
  | ok : DlRes
  | err (e : Err)
  | panicked : DlRes
  deriving DecidableEq, Repr

/-- The oracles consulted by the downloader's effects. -/
structure World where
  dirExists : String → Bool
  mkdirFails : String → Bool
  fetchImage : String → Except String String
  writeFails : String → Bool
  helperFails : String → String → String → Bool

/-- Zero-pad the decimal form of `n` to at least `width` digits; embeds the
zero-filled numeric paddings used by the source (`{:02}` and the `time`
format items `[year]`, `[month]`, `[day]`, ...). -/
def padZero (width : Nat) (n : Nat) : String :=
  (⟨List.replicate (width - (toString n).length) '0'⟩ : String) ++ toString n

/-- Two-digit zero padding, `{:02}` in the source. -/
def pad2 (n : Nat) : String := padZero 2 n

/-- Embeds the `[year][month][day]` format of `gen_prefix`. -/
def fmtDate (t : DateTime) : String :=
  padZero 4 t.year ++ pad2 t.month ++ pad2 t.day

/-- The UTC-offset part of the `time` crate's RFC 3339 formatting: `Z` for
UTC, otherwise a signed `hh:mm` offset. -/
def fmtOffset (t : DateTime) : String :=
  if t.offHour = 0 ∧ t.offMinute = 0 then "Z"
  else (if t.offHour < 0 then "-" else "+") ++ pad2 t.offHour.natAbs ++ ":" ++
    pad2 t.offMinute

/-- Embeds the `time` crate's RFC 3339 formatting of `created_at`. -/
def fmtRfc3339 (t : DateTime) : String :=
  padZero 4 t.year ++ "-" ++ pad2 t.month ++ "-" ++ pad2 t.day ++ "T" ++
    pad2 t.hour ++ ":" ++ pad2 t.minute ++ ":" ++ pad2 t.second ++ fmtOffset t

/-- Embeds `gen_prefix`: `<YYYYMMDD>-<id>-<screen_name>`. -/
def genPrefix (p : WeiboPost) : String :=
  fmtDate p.created_at ++ "-" ++ toString p.id ++ "-" ++ p.user.screen_name

/-- The post's target directory `dir.join(prefix)`. -/
def postDir (dir : String) (p : WeiboPost) : String :=
  dir ++ "/" ++ genPrefix p

/-- The templated image asset URL of `download_image`. -/
def imgUrl (imgId : String) : String :=
  "https://wx2.sinaimg.cn/large/" ++ imgId ++ ".jpg"

/-- The canonical mobile post URL written to the manifest. -/
def statusUrl (id : Nat) : String :=
  "https://m.weibo.cn/status/" ++ toString id

/-- Embeds the `link:` loop of `write_text`: one `link: <url>` line per
entry with a non-empty url, in original order. -/
def linkBlock : List WeiboUrl → String
  | [] => ""
  | u :: us =>
    (if u.url.isEmpty then "" else "link: " ++ u.url ++ "\n") ++ linkBlock us

/-- Embeds `write_text`: the byte content the sequence of `write_all` calls
produces for the `<prefix>-content.txt` manifest. -/
def write_text_content (p : WeiboPost) : String :=
  ("url: " ++ statusUrl p.id ++ "\n") ++
  ("user: " ++ p.user.screen_name ++ "\n") ++
  ("created_at: " ++ fmtRfc3339 p.created_at ++ "\n") ++
  linkBlock (p.urls.getD []) ++
  ("\n" ++ p.text)

/-- Join lines, terminating each with a newline. -/
def joinLines : List String → String
  | [] => ""
  | s :: rest => s ++ "\n" ++ joinLines rest

/-- The manifest as the claim describes it: a list of lines in fixed order —
the `url:` line, the `user:` line, the `created_at:` line, one `link:` line
per non-empty link url in original order, and a blank line. -/
def manifestLines (p : WeiboPost) : List String :=
  ["url: https://m.weibo.cn/status/" ++ toString p.id,
   "user: " ++ p.user.screen_name,
   "created_at: " ++ fmtRfc3339 p.created_at] ++
  ((p.urls.getD []).filterMap fun u =>
    if u.url.isEmpty then none else some ("link: " ++ u.url)) ++
  [""]

/-- The claim-side manifest: the lines, newline-terminated, then the raw
post text verbatim to end of file. -/
def manifestSpec (p : WeiboPost) : String :=
  joinLines (manifestLines p) ++ p.text

/-- Embeds `download_image`: fetch the templated asset URL, then create the
file and write the raw bytes; a failed write is reported as
`Could not write to <path>`. -/
def download_image (fetch : String → Except String String)
    (writeFails : String → Bool) (imgId : String) (path : String) :
    List Action × Except Err Unit :=
  let url := imgUrl imgId
  match fetch url with
  | .error m => ([.fetchImage url], .error (.net m))
  | .ok data =>
    if writeFails path then
      ([.fetchImage url, .writeFile path data], .error (.couldNotWrite path))
    else
      ([.fetchImage url, .writeFile path data], .ok ())

/-- Embeds the image loop of `download`: pictures in original list order,
the i-th (0-based) written to `<prefix>-img<i+1 padded to 2>.jpg`; the first
failure aborts the rest of the loop. -/
def downloadImagesAux (fetch : String → Except String String)
    (writeFails : String → Bool) (pd pre : String) :
    Nat → List String → List Action × Except Err Unit
  | _, [] => ([], .ok ())
  | i, imgId :: rest =>
    let path := pd ++ "/" ++ (pre ++ "-img" ++ pad2 (i + 1) ++ ".jpg")
    let s := download_image fetch writeFails imgId path
    match s.2 with
    | .error e => (s.1, .error e)
    | .ok _ =>
      let s2 := downloadImagesAux fetch writeFails pd pre (i + 1) rest
      (s.1 ++ s2.1, s2.2)

/-- Embeds `download_video`: invoke the external `lux` helper with the
output name, the output directory, and the resolved URL; a non-zero exit is
the error `Unable to download <url>`. -/
def download_video (helperFails : String → String → String → Bool)
    (url : String) (name : String) (outDir : String) :
    List Action × Except Err Unit :=
  if helperFails name outDir url then
    ([.runHelper name outDir url], .error (.unableToDownload url))
  else
    ([.runHelper name outDir url], .ok ())

/-- Embeds the video loop of `download`: each `links` entry in order is fed
to `is_video`; a match at 0-based position i triggers one helper invocation
with target name `<prefix>-vid<i+1 padded to 2>`; a resolver panic aborts
everything, a helper failure aborts the rest of the loop. -/
def downloadVideosAux (helperFails : String → String → String → Bool)
    (pd pre : String) : Nat → List WeiboUrl → List Action × DlRes
  | _, [] => ([], .ok)
  | i, u :: rest =>
    match is_video u with
    | .error _ => ([], .panicked)
    | .ok none => downloadVideosAux helperFails pd pre (i + 1) rest
    | .ok (some v) =>
      let name := pre ++ "-vid" ++ pad2 (i + 1)
      let s := download_video helperFails v name pd
      match s.2 with
      | .error e => (s.1, .err e)
      | .ok _ =>
        let s2 := downloadVideosAux helperFails pd pre (i + 1) rest
        (s.1 ++ s2.1, s2.2)

/-- The manifest file path `post_dir.join(<prefix>-content.txt)`. -/
def manifestPath (pd pre : String) : String :=
  pd ++ "/" ++ (pre ++ "-content.txt")

/-- Embeds `WeiboPost::download`: skip when the target directory exists,
else create it, download the images in order, run the video loop, and write
the text manifest — strictly in that order, aborting on the first failure. -/
def download (w : World) (dir : String) (p : WeiboPost) : List Action × DlRes :=
  let pre := genPrefix p
  let pd := dir ++ "/" ++ pre
  if w.dirExists pd then ([], .ok)
  else if w.mkdirFails pd then ([.createDir pd], .err (.io pd))
  else
    let s1 := downloadImagesAux w.fetchImage w.writeFails pd pre 0 p.pictures
    match s1.2 with
    | .error e => (.createDir pd :: s1.1, .err e)
    | .ok _ =>
      let s2 := downloadVideosAux w.helperFails pd pre 0 (p.urls.getD [])
      match s2.2 with
      | .panicked => (.createDir pd :: (s1.1 ++ s2.1), .panicked)
      | .err e => (.createDir pd :: (s1.1 ++ s2.1), .err e)
      | .ok =>
        let mp := manifestPath pd pre
        let c := write_text_content p
        if w.writeFails mp then
          (.createDir pd :: (s1.1 ++ s2.1 ++ [.writeFile mp c]), .err (.io mp))
        else
          (.createDir pd :: (s1.1 ++ s2.1 ++ [.writeFile mp c]), .ok)

/-- How one performed action updates the world: a successful `create_dir_all`
makes the directory exist; nothing else the downloader does changes what the
oracles answer. -/
def applyAction (w : World) : Action → World
  | .createDir pth =>
    if w.mkdirFails pth then w
    else { w with dirExists := fun q => if q = pth then true else w.dirExists q }
  | _ => w

/-- Apply a trace of actions to the world in order. -/
def applyActions (w : World) (t : List Action) : World :=
  t.foldl applyAction w

/-! ### The Download Orchestrator (`main` / `fn download`) -/

/-- Embeds the orchestration of `main`: run the per-post downloader over all
posts, keep every failed result, and report the failures only after the
batch; `none` models a panic unwinding out of the batch. The stream runs
posts with bounded concurrency over disjoint target directories; the trace
here serializes it in submission order. -/
def orchestrate (w : World) (dir : String) :
    List WeiboPost → List Action × Option (List Err)
  | [] => ([], some [])
  | p :: ps =>
    let s := download w dir p
    match s.2 with
    | .panicked => (s.1, none)
    | .err e =>
      let s2 := orchestrate (applyActions w s.1) dir ps
      (s.1 ++ s2.1, s2.2.map fun es => e :: es)
    | .ok =>
      let s2 := orchestrate (applyActions w s.1) dir ps
      (s.1 ++ s2.1, s2.2)

/-- The per-post download outcomes of the batch, in submission order, with
the world threaded through the performed actions. -/
def downloadSeq (w : World) (dir : String) :
    List WeiboPost → List (List Action × DlRes)
  | [] => []
  | p :: ps =>
    download w dir p :: downloadSeq (applyActions w (download w dir p).1) dir ps

/-- The observable outcome of `main`: the listing phase failed (main returns
the error; no downloads were attempted), the batch panicked, or the batch
completed with the collected per-post failures (main returns `Ok(())`). -/
inductive MainOutcome where
  | fetchFailed (reqs : List Request) (e : String)
  | panicked (reqs : List Request) (acts : List Action)
  | completed (reqs : List Request) (acts : List Action) (errs : List Err)
  deriving DecidableEq, Repr

/-- The download actions `main` performed. -/
def MainOutcome.downloadActions : MainOutcome → List Action
  | .fetchFailed _ _ => []
  | .panicked _ acts => acts
  | .completed _ acts _ => acts

/-- Embeds `main`: fetch the listing, and only on success run the download
orchestration; per-post failures are printed after the batch and do not
affect the `Ok(())` result. -/
def mainModel (net : FetchNet) (w : World) (uid : Nat) (cookie dir : String)
    (fuel : Nat) : Option MainOutcome :=
  match get_posts net uid cookie fuel with
  | none => none
  | some (reqs, .error e) => some (.fetchFailed reqs e)
  | some (reqs, .ok posts) =>
    match orchestrate w dir posts with
    | (acts, none) => some (.panicked reqs acts)
    | (acts, some errs) => some (.completed reqs acts errs)

/-- The error of a per-post outcome, if any. -/
def errOf : DlRes → Option Err
  | .err e => some e
  | _ => none

/-! ### The admission-control bound of the orchestrator

`main` drives the per-post downloads through a stream combinator with at
most 20 downloads in flight (`buffer_unordered(20)`); the combinator itself
is library code outside this repository, so its admission-control semantics
is embedded as a transition system: a scheduler step either starts a queued
download when strictly fewer than the bound are in flight, or finishes an
in-flight download, freeing its slot. -/

/-- The fixed in-flight bound of the orchestrating stream, the literal 20 of
`buffer_unordered(20)`. -/
def inFlightBound : Nat := 20

/-- A scheduler state of one batch: downloads not yet started, started but
not finished (in flight), and finished. -/
structure SchedState where
  queued : Nat
  inflight : Nat
  done : Nat
  deriving DecidableEq, Repr

/-- One scheduler step: start a queued download only when a slot is free,
or finish an in-flight download. -/
inductive SchedStep : SchedState → SchedState → Prop where
  | start (s : SchedState) (hq : 0 < s.queued) (hb : s.inflight < inFlightBound) :
      SchedStep s ⟨s.queued - 1, s.inflight + 1, s.done⟩
  | finish (s : SchedState) (hf : 0 < s.inflight) :
      SchedStep s ⟨s.queued, s.inflight - 1, s.done + 1⟩

/-- Reachability from the initial state of a batch of `n` posts: all queued,
none in flight, none done. -/
def SchedReachable (n : Nat) (s : SchedState) : Prop :=
  Relation.ReflTransGen SchedStep ⟨n, 0, 0⟩ s

/-! ### Concrete worlds and posts for witnesses and counterexamples -/

/-- A world in which every effect succeeds and no directory exists yet. -/
def allOkWorld : World :=
  { dirExists := fun _ => false
    mkdirFails := fun _ => false
    fetchImage := fun _ => .ok "IMG"
    writeFails := fun _ => false
    helperFails := fun _ _ _ => false }

/-- Like `allOkWorld`, but the external video helper always exits non-zero. -/
def helperFailWorld : World :=
  { allOkWorld with helperFails := fun _ _ _ => true }

/-- A concrete post carrying one canonical video link, with a choosable id. -/
def vidPost (id : Nat) : WeiboPost :=
  { created_at := ⟨2023, 1, 2, 3, 4, 5, 8, 0⟩
    id := id
    user := ⟨7, "alice", "a"⟩
    text := "hello"
    pictures := []
    urls := some [⟨"v", "https://weibo.com/tv/show/x"⟩] }

/-- A concrete post whose single link starts with the legacy video host but
carries no `fid` parameter, so the resolver panics on it. -/
def badVidPost : WeiboPost :=
  { vidPost 5 with urls := some [⟨"v", "https://video.weibo.com"⟩] }

/-- A concrete post with three pictures and no links. -/
def imgPost : WeiboPost :=
  { vidPost 6 with urls := none, pictures := ["aa", "bb", "cc"] }

/-- A concrete post used to instantiate witnesses. -/
def wPost : WeiboPost :=
  { created_at := ⟨2023, 1, 2, 3, 4, 5, 8, 0⟩
    id := 42
    user := ⟨7, "alice", "a"⟩
    text := "hello"
    pictures := []
    urls := none }

/-- A concrete listing oracle: one non-empty page, then an empty page. -/
def wNet : FetchNet := fun r =>
  if r = pageRequest 9 1 "ck" then .ok [wPost]
  else if r = pageRequest 9 2 "ck" then .ok []
  else .error "unexpected request"

/-- A concrete listing oracle whose first page fails. -/
def wNetErr : FetchNet := fun r =>
  if r = pageRequest 9 1 "ck" then .error "boom" else .ok []

/-- A world in which every target directory already exists. -/
def allExistsWorld : World :=
  { allOkWorld with dirExists := fun _ => true }

end ArchiveWeibo

namespace ArchiveWeibo

/-- Helper: `pageSeq` is the map of `pageRequest` over the contiguous page
range. -/
theorem pageSeq_eq (uid : Nat) (cookie : String) :
    ∀ n page, pageSeq uid cookie page n =
      (List.range' page n).map fun pg => pageRequest uid pg cookie := by
  intro n
  induction n with
  | zero => intro page; rfl
  | succ m ih =>
    intro page
    rw [List.range'_succ]
    simp [pageSeq, ih (page + 1)]

/-- Helper: `postsConcat` is the bind of the responses over the contiguous
page range. -/
theorem postsConcat_eq (resp : Nat → List WeiboPost) :
    ∀ n page, postsConcat resp page n = (List.range' page n).flatMap resp := by
  intro n
  induction n with
  | zero => intro page; rfl
  | succ m ih =>
    intro page
    rw [List.range'_succ]
    simp [postsConcat, ih (page + 1)]

/-- Helper: the fetch loop, started at any page, walks `N` non-empty pages
and stops at the first empty page, returning their concatenation. -/
theorem get_postsAux_ok (net : FetchNet) (uid : Nat) (cookie : String)
    (resp : Nat → List WeiboPost) :
    ∀ N page fuel, N + 1 ≤ fuel →
      (∀ pg, page ≤ pg → pg < page + N →
        net (pageRequest uid pg cookie) = .ok (resp pg) ∧ resp pg ≠ []) →
      net (pageRequest uid (page + N) cookie) = .ok [] →
      get_postsAux net uid cookie fuel page =
        some (pageSeq uid cookie page (N + 1), .ok (postsConcat resp page N)) := by
  intro N
  induction N with
  | zero =>
    intro page fuel hfuel hok hempty
    obtain ⟨f, rfl⟩ : ∃ f, fuel = f + 1 := ⟨fuel - 1, by omega⟩
    rw [Nat.add_zero] at hempty
    simp [get_postsAux, hempty, pageSeq, postsConcat]
  | succ M ih =>
    intro page fuel hfuel hok hempty
    obtain ⟨f, rfl⟩ : ∃ f, fuel = f + 1 := ⟨fuel - 1, by omega⟩
    have h0 := hok page (le_refl page) (by omega)
    have hne : (resp page).isEmpty = false := by
      cases hrp : resp page with
      | nil => exact absurd hrp h0.2
      | cons a l => rfl
    have hrec := ih (page + 1) f (by omega)
      (fun pg h1 h2 => hok pg (by omega) (by omega))
      (by rw [show page + 1 + M = page + (M + 1) by omega]; exact hempty)
    simp [get_postsAux, h0.1, hne, hrec, pageSeq, postsConcat]

/-- C2: for page responses with N non-empty pages followed by an empty page,
`get_posts` requests pages 1, 2, ..., N+1 in order — each with `uid` and
`page` as query parameters and the session cookie as a header — terminates
successfully at the first empty page, and returns exactly the concatenation
of the N non-empty pages' posts in page order. -/
theorem get_posts_pagination (net : FetchNet) (uid : Nat) (cookie : String)
    (N fuel : Nat) (resp : Nat → List WeiboPost)
    (hok : ∀ pg, 1 ≤ pg → pg ≤ N →
      net (pageRequest uid pg cookie) = .ok (resp pg) ∧ resp pg ≠ [])
    (hempty : net (pageRequest uid (N + 1) cookie) = .ok [])
    (hfuel : N + 1 ≤ fuel) :
    get_posts net uid cookie fuel =
      some ((List.range' 1 (N + 1)).map fun pg => pageRequest uid pg cookie,
        .ok ((List.range' 1 N).flatMap resp)) := by
  rw [get_posts, get_postsAux_ok net uid cookie resp N 1 fuel hfuel
    (fun pg h1 h2 => hok pg h1 (by omega))
    (by rw [show 1 + N = N + 1 by omega]; exact hempty)]
  rw [pageSeq_eq, postsConcat_eq]

/-- Witness for `get_posts_pagination`: the concrete oracle `wNet` with one
non-empty page then an empty page. -/
theorem get_posts_pagination_witness :
    get_posts wNet 9 "ck" 5 =
      some ((List.range' 1 2).map fun pg => pageRequest 9 pg "ck",
        .ok ((List.range' 1 1).flatMap fun _ => [wPost])) :=
  get_posts_pagination wNet 9 "ck" 1 5 (fun _ => [wPost])
    (fun pg h1 h2 => by
      have hpg : pg = 1 := by omega
      subst hpg
      exact ⟨rfl, by simp⟩)
    rfl
    (by omega)

/-- Helper: the fetch loop, started at any page, walks `K` non-empty pages
and aborts at a failing page, returning the error and no partial list. -/
theorem get_postsAux_err (net : FetchNet) (uid : Nat) (cookie : String)
    (resp : Nat → List WeiboPost) (e : String) :
    ∀ K page fuel, K + 1 ≤ fuel →
      (∀ pg, page ≤ pg → pg < page + K →
        net (pageRequest uid pg cookie) = .ok (resp pg) ∧ resp pg ≠ []) →
      net (pageRequest uid (page + K) cookie) = .error e →
      get_postsAux net uid cookie fuel page =
        some (pageSeq uid cookie page (K + 1), .error e) := by
  intro K
  induction K with
  | zero =>
    intro page fuel hfuel hok herr
    obtain ⟨f, rfl⟩ : ∃ f, fuel = f + 1 := ⟨fuel - 1, by omega⟩
    rw [Nat.add_zero] at herr
    simp [get_postsAux, herr, pageSeq]
  | succ M ih =>
    intro page fuel hfuel hok herr
    obtain ⟨f, rfl⟩ : ∃ f, fuel = f + 1 := ⟨fuel - 1, by omega⟩
    have h0 := hok page (le_refl page) (by omega)
    have hne : (resp page).isEmpty = false := by
      cases hrp : resp page with
      | nil => exact absurd hrp h0.2
      | cons a l => rfl
    have hrec := ih (page + 1) f (by omega)
      (fun pg h1 h2 => hok pg (by omega) (by omega))
      (by rw [show page + 1 + M = page + (M + 1) by omega]; exact herr)
    simp [get_postsAux, h0.1, hne, hrec, pageSeq]

/-- C8: if any single page request fails in the listing phase, the entire
fetch aborts with the error and returns no partial post list, and `main`
attempts no post downloads (its outcome performs zero download actions). -/
theorem fetch_all_or_nothing (net : FetchNet) (w : World) (uid : Nat)
    (cookie dir : String) (K fuel : Nat) (resp : Nat → List WeiboPost) (e : String)
    (hok : ∀ pg, 1 ≤ pg → pg ≤ K →
      net (pageRequest uid pg cookie) = .ok (resp pg) ∧ resp pg ≠ [])
    (herr : net (pageRequest uid (K + 1) cookie) = .error e)
    (hfuel : K + 1 ≤ fuel) :
    get_posts net uid cookie fuel =
      some ((List.range' 1 (K + 1)).map fun pg => pageRequest uid pg cookie,
        .error e) ∧
    mainModel net w uid cookie dir fuel =
      some (.fetchFailed ((List.range' 1 (K + 1)).map fun pg => pageRequest uid pg cookie) e) ∧
    ∀ o, mainModel net w uid cookie dir fuel = some o → o.downloadActions = [] := by
  have h := get_postsAux_err net uid cookie resp e K 1 fuel hfuel
    (fun pg h1 h2 => hok pg h1 (by omega))
    (by rw [show 1 + K = K + 1 by omega]; exact herr)
  rw [pageSeq_eq] at h
  have hg : get_posts net uid cookie fuel =
      some ((List.range' 1 (K + 1)).map fun pg => pageRequest uid pg cookie,
        .error e) := by
    rw [get_posts]; exact h
  have hm : mainModel net w uid cookie dir fuel =
      some (.fetchFailed ((List.range' 1 (K + 1)).map fun pg => pageRequest uid pg cookie) e) := by
    rw [mainModel, hg]
  refine ⟨hg, hm, ?_⟩
  intro o ho
  rw [hm] at ho
  cases ho
  rfl

/-- Witness for `fetch_all_or_nothing`: the oracle `wNetErr` whose very
first page request fails. -/
theorem fetch_all_or_nothing_witness :
    get_posts wNetErr 9 "ck" 3 =
      some ((List.range' 1 1).map fun pg => pageRequest 9 pg "ck", .error "boom") ∧
    mainModel wNetErr allOkWorld 9 "ck" "out" 3 =
      some (.fetchFailed ((List.range' 1 1).map fun pg => pageRequest 9 pg "ck") "boom") ∧
    ∀ o, mainModel wNetErr allOkWorld 9 "ck" "out" 3 = some o →
      o.downloadActions = [] :=
  fetch_all_or_nothing wNetErr allOkWorld 9 "ck" "out" 0 3 (fun _ => []) "boom"
    (fun pg h1 h2 => ((by omega : False)).elim)
    rfl
    (by omega)

/-- Helper: `joinLines` distributes over list concatenation. -/
theorem joinLines_append (a b : List String) :
    joinLines (a ++ b) = joinLines a ++ joinLines b := by
  induction a with
  | nil => simp [joinLines]
  | cons s rest ih => simp [joinLines, ih, String.append_assoc]

/-- Helper: the `link:` loop of `write_text` produces exactly the
newline-terminated `link:` lines of the non-empty link urls, in order. -/
theorem linkBlock_eq (us : List WeiboUrl) :
    linkBlock us = joinLines (us.filterMap fun u =>
      if u.url.isEmpty then none else some ("link: " ++ u.url)) := by
  induction us with
  | nil => rfl
  | cons u rest ih =>
    by_cases h : u.url.isEmpty <;>
      simp [linkBlock, h, ih, joinLines, String.append_assoc, String.empty_append]

/-- C5: the text manifest consists, in fixed order, of the line
`url: https://m.weibo.cn/status/<post.id>`, the line `user: <display name>`,
the line `created_at: <RFC3339 timestamp>`, one `link: <url>` line per link
entry with a non-empty url in original order (empty-url entries omitted),
one blank line, and then the raw post text verbatim to end of file. -/
theorem manifest_format (p : WeiboPost) : write_text_content p = manifestSpec p := by
  have hfuse : ∀ s : String,
      "url: " ++ ("https://m.weibo.cn/status/" ++ s) =
        "url: https://m.weibo.cn/status/" ++ s := by
    intro s
    rw [← String.append_assoc]
    exact congrArg (fun z => z ++ s) rfl
  simp [write_text_content, manifestSpec, manifestLines, joinLines, joinLines_append,
    linkBlock_eq, statusUrl, String.append_assoc, String.append_empty, String.empty_append,
    hfuse]

/-- Helper: applying a trace starting with one action. -/
theorem applyActions_cons (w : World) (a : Action) (t : List Action) :
    applyActions w (a :: t) = applyActions (applyAction w a) t := rfl

/-- Helper: applying a concatenated trace. -/
theorem applyActions_append (w : World) (t1 t2 : List Action) :
    applyActions w (t1 ++ t2) = applyActions (applyActions w t1) t2 := by
  simp [applyActions]

/-- Helper: no action makes an existing directory stop existing. -/
theorem applyAction_dirExists_mono (w : World) (a : Action) (q : String)
    (h : w.dirExists q = true) : (applyAction w a).dirExists q = true := by
  cases a with
  | createDir pth =>
    by_cases hm : w.mkdirFails pth <;> simp [applyAction, hm, h]
  | fetchImage u => exact h
  | writeFile p c => exact h
  | runHelper n o u => exact h

/-- Helper: no trace makes an existing directory stop existing. -/
theorem applyActions_dirExists_mono (w : World) (t : List Action) (q : String)
    (h : w.dirExists q = true) : (applyActions w t).dirExists q = true := by
  induction t generalizing w with
  | nil => exact h
  | cons a t ih =>
    rw [applyActions_cons]
    exact ih (applyAction w a) (applyAction_dirExists_mono w a q h)

/-- Helper: the downloader returns success immediately, with an empty trace,
when the target directory exists. -/
theorem download_skip (w : World) (dir : String) (p : WeiboPost)
    (h : w.dirExists (postDir dir p) = true) : download w dir p = ([], .ok) := by
  rw [postDir] at h
  simp [download, h]

/-- Helper: when the directory does not exist and its creation succeeds, the
trace starts with the directory creation. -/
theorem download_trace_head (w : World) (dir : String) (p : WeiboPost)
    (hd : w.dirExists (postDir dir p) = false)
    (hm : w.mkdirFails (postDir dir p) = false) :
    ∃ rest, (download w dir p).1 = .createDir (postDir dir p) :: rest := by
  rw [postDir] at hd hm
  simp only [download, hd, hm, Bool.false_eq_true, if_false]
  split
  · exact ⟨_, rfl⟩
  · split
    · exact ⟨_, rfl⟩
    · exact ⟨_, rfl⟩
    · split
      · exact ⟨_, rfl⟩
      · exact ⟨_, rfl⟩

/-- Helper: after a successful per-post download, the post's target
directory exists. -/
theorem download_ok_dirExists (w : World) (dir : String) (p : WeiboPost)
    (h : (download w dir p).2 = .ok) :
    (applyActions w (download w dir p).1).dirExists (postDir dir p) = true := by
  by_cases hd : w.dirExists (postDir dir p)
  · rw [download_skip w dir p hd]
    exact hd
  · have hd' : w.dirExists (postDir dir p) = false := by simpa using hd
    by_cases hm : w.mkdirFails (postDir dir p)
    · exfalso
      have hdl : download w dir p =
          ([.createDir (dir ++ "/" ++ genPrefix p)], .err (.io (dir ++ "/" ++ genPrefix p))) := by
        rw [postDir] at hd' hm
        simp [download, hd', hm]
      rw [hdl] at h
      simp at h
    · have hm' : w.mkdirFails (postDir dir p) = false := by simpa using hm
      obtain ⟨rest, hr⟩ := download_trace_head w dir p hd' hm'
      rw [hr, applyActions_cons]
      apply applyActions_dirExists_mono
      rw [postDir] at hm' ⊢
      simp [applyAction, hm']

/-- Helper: after a batch in which every post succeeded, every post's target
directory exists. -/
theorem orchestrate_ok_dirs (dir : String) :
    ∀ (posts : List WeiboPost) (w : World) (t : List Action),
      orchestrate w dir posts = (t, some []) →
      ∀ p ∈ posts, (applyActions w t).dirExists (postDir dir p) = true := by
  intro posts
  induction posts with
  | nil =>
    intro w t h p hp
    exact absurd hp (List.not_mem_nil p)
  | cons q ps ih =>
    intro w t h p hp
    rcases hdq : (download w dir q).2 with _ | e | _
    · have hu : orchestrate w dir (q :: ps) =
          ((download w dir q).1 ++ (orchestrate (applyActions w (download w dir q).1) dir ps).1,
           (orchestrate (applyActions w (download w dir q).1) dir ps).2) := by
        simp [orchestrate, hdq]
      rw [hu] at h
      injection h with h1 h2
      subst h1
      have h2' : orchestrate (applyActions w (download w dir q).1) dir ps =
          ((orchestrate (applyActions w (download w dir q).1) dir ps).1, some []) :=
        Prod.ext rfl h2
      rcases List.mem_cons.mp hp with rfl | hp'
      · rw [applyActions_append]
        exact applyActions_dirExists_mono _ _ _ (download_ok_dirExists w dir p hdq)
      · rw [applyActions_append]
        exact ih (applyActions w (download w dir q).1) _ h2' p hp'
    · exfalso
      have hu : orchestrate w dir (q :: ps) =
          ((download w dir q).1 ++ (orchestrate (applyActions w (download w dir q).1) dir ps).1,
           ((orchestrate (applyActions w (download w dir q).1) dir ps).2).map fun es => e :: es) := by
        simp [orchestrate, hdq]
      rw [hu] at h
      injection h with h1 h2
      rcases hres : (orchestrate (applyActions w (download w dir q).1) dir ps).2 with _ | es
      · rw [hres] at h2; simp at h2
      · rw [hres] at h2; simp at h2
    · exfalso
      have hu : orchestrate w dir (q :: ps) = ((download w dir q).1, none) := by
        simp [orchestrate, hdq]
      rw [hu] at h
      injection h with h1 h2
      simp at h2

/-- Helper: a batch over posts whose target directories all exist performs
no action and collects no error. -/
theorem orchestrate_skip (dir : String) :
    ∀ (posts : List WeiboPost) (w : World),
      (∀ p ∈ posts, w.dirExists (postDir dir p) = true) →
      orchestrate w dir posts = ([], some []) := by
  intro posts
  induction posts with
  | nil => intro w h; rfl
  | cons q ps ih =>
    intro w h
    have hq := download_skip w dir q (h q (List.mem_cons_self _ _))
    simp [orchestrate, hq]
    exact ih w (fun p hp => h p (List.mem_cons_of_mem _ hp))

/-- C3: if a post's deterministically computed target directory already
exists, `download` returns success immediately with an empty trace — no
network request, filesystem write, or helper invocation, and no content
verification; consequently, after a fully successful batch, re-running the
batch against the resulting filesystem performs zero download work. -/
theorem skip_if_exists (w : World) (dir : String) (p : WeiboPost)
    (posts : List WeiboPost) (t : List Action) :
    (w.dirExists (postDir dir p) = true → download w dir p = ([], .ok)) ∧
    (orchestrate w dir posts = (t, some []) →
      orchestrate (applyActions w t) dir posts = ([], some [])) := by
  refine ⟨fun h => download_skip w dir p h, fun h => ?_⟩
  exact orchestrate_skip dir posts (applyActions w t)
    (fun q hq => orchestrate_ok_dirs dir posts w t h q hq)

/-- Witness for `skip_if_exists`: a world where the directory exists, and a
concrete successful first run followed by a no-op second run. -/
theorem skip_if_exists_witness :
    download allExistsWorld "out" wPost = ([], .ok) ∧
    orchestrate (applyActions allOkWorld (orchestrate allOkWorld "out" [wPost]).1)
      "out" [wPost] = ([], some []) :=
  ⟨(skip_if_exists allExistsWorld "out" wPost [] []).1 rfl,
   (skip_if_exists allOkWorld "out" wPost [wPost]
     (orchestrate allOkWorld "out" [wPost]).1).2 (by rfl)⟩

/-- Helper: an image file path is never the manifest path. -/
theorem imgPath_ne_manifestPath (pd pre s : String) :
    pd ++ "/" ++ (pre ++ "-img" ++ s ++ ".jpg") ≠ manifestPath pd pre := by
  intro h
  have h' := congrArg String.data h
  simp [manifestPath, String.data_append] at h'

/-- Helper: when every fetch and write succeeds, the image loop started at
index `i` downloads and writes each picture in order, the entry at 0-based
position `j` going to `<prefix>-img<j+1, 2-digit padded>.jpg`. -/
theorem downloadImagesAux_ok (fetch : String → Except String String)
    (wf : String → Bool) (bytes : String → String) (pd pre : String)
    (hf : ∀ u, fetch u = .ok (bytes u)) (hw : ∀ q, wf q = false) :
    ∀ (imgs : List String) (i : Nat),
      downloadImagesAux fetch wf pd pre i imgs =
        ((List.enumFrom i imgs).flatMap fun x =>
          [Action.fetchImage (imgUrl x.2),
           Action.writeFile (pd ++ "/" ++ (pre ++ "-img" ++ pad2 (x.1 + 1) ++ ".jpg"))
             (bytes (imgUrl x.2))],
         .ok ()) := by
  intro imgs
  induction imgs with
  | nil => intro i; rfl
  | cons a rest ih =>
    intro i
    simp [downloadImagesAux, download_image, hf (imgUrl a), hw, ih (i + 1), List.enumFrom]

/-- Helper: when the helper always succeeds and no link panics the resolver,
the video loop started at index `i` invokes the helper once per resolver
match, the match at 0-based position `j` of the links list using target name
`<prefix>-vid<j+1, 2-digit padded>` — positions of non-matches are not
renumbered away. -/
theorem downloadVideosAux_ok (hlp : String → String → String → Bool)
    (pd pre : String) (hh : ∀ n o u, hlp n o u = false) :
    ∀ (us : List WeiboUrl) (i : Nat), (∀ u ∈ us, is_video u ≠ .error ()) →
      downloadVideosAux hlp pd pre i us =
        ((List.enumFrom i us).filterMap fun x =>
          match is_video x.2 with
          | .ok (some v) => some (Action.runHelper (pre ++ "-vid" ++ pad2 (x.1 + 1)) pd v)
          | _ => none,
         .ok) := by
  intro us
  induction us with
  | nil => intro i h; rfl
  | cons u rest ih =>
    intro i h
    rcases hv : is_video u with e | o
    · exact absurd hv (by cases e; exact h u (List.mem_cons_self _ _))
    · rcases o with _ | v
      · simp [downloadVideosAux, hv, ih (i + 1) (fun x hx => h x (List.mem_cons_of_mem _ hx)),
          List.enumFrom]
      · simp [downloadVideosAux, download_video, hv, hh,
          ih (i + 1) (fun x hx => h x (List.mem_cons_of_mem _ hx)), List.enumFrom]

/-- C6: on a fully successful download, image files are named
`<prefix>-img<NN>.jpg` with `NN` the 2-digit 1-based position of the picture
id in the original list, and each video helper invocation targets
`<prefix>-vid<NN>` with `NN` the 1-based position of the matching entry in
the full links sequence (not renumbered per match). -/
theorem filename_numbering (w : World) (dir : String) (p : WeiboPost)
    (bytes : String → String)
    (hf : ∀ u, w.fetchImage u = .ok (bytes u))
    (hw : ∀ q, w.writeFails q = false)
    (hm : ∀ q, w.mkdirFails q = false)
    (hh : ∀ n o u, w.helperFails n o u = false)
    (hd : w.dirExists (postDir dir p) = false)
    (hv : ∀ u ∈ p.urls.getD [], is_video u ≠ .error ()) :
    download w dir p =
      (Action.createDir (postDir dir p) ::
        ((p.pictures.enum.flatMap fun x =>
          [Action.fetchImage (imgUrl x.2),
           Action.writeFile
             (postDir dir p ++ "/" ++ (genPrefix p ++ "-img" ++ pad2 (x.1 + 1) ++ ".jpg"))
             (bytes (imgUrl x.2))]) ++
        (((p.urls.getD []).enum.filterMap fun x =>
          match is_video x.2 with
          | .ok (some v) =>
            some (Action.runHelper (genPrefix p ++ "-vid" ++ pad2 (x.1 + 1)) (postDir dir p) v)
          | _ => none) ++
        [Action.writeFile (manifestPath (postDir dir p) (genPrefix p)) (write_text_content p)])),
      .ok) := by
  have h1 := downloadImagesAux_ok w.fetchImage w.writeFails bytes (postDir dir p)
    (genPrefix p) hf hw p.pictures 0
  have h2 := downloadVideosAux_ok w.helperFails (postDir dir p) (genPrefix p) hh
    (p.urls.getD []) 0 hv
  rw [postDir] at hd h1 h2 ⊢
  simp [download, hd, hm, h1, h2, hw, manifestPath, List.enum]

/-- Witness for `filename_numbering`: the three-picture post `imgPost` in
the all-success world; the three image writes target `-img01.jpg`,
`-img02.jpg`, `-img03.jpg` in list order. -/
theorem filename_numbering_witness :
    download allOkWorld "out" imgPost =
      (Action.createDir (postDir "out" imgPost) ::
        ((imgPost.pictures.enum.flatMap fun x =>
          [Action.fetchImage (imgUrl x.2),
           Action.writeFile
             (postDir "out" imgPost ++ "/" ++
               (genPrefix imgPost ++ "-img" ++ pad2 (x.1 + 1) ++ ".jpg"))
             "IMG"]) ++
        (((imgPost.urls.getD []).enum.filterMap fun x =>
          match is_video x.2 with
          | .ok (some v) =>
            some (Action.runHelper (genPrefix imgPost ++ "-vid" ++ pad2 (x.1 + 1))
              (postDir "out" imgPost) v)
          | _ => none) ++
        [Action.writeFile (manifestPath (postDir "out" imgPost) (genPrefix imgPost))
          (write_text_content imgPost)])),
      .ok) :=
  filename_numbering allOkWorld "out" imgPost (fun _ => "IMG")
    (fun _ => rfl) (fun _ => rfl) (fun _ => rfl) (fun _ _ _ => rfl) rfl
    (fun u hu => absurd hu (List.not_mem_nil u))

/-- C1: the Video Link Resolver applies its rules in order: a url starting
with `https://video.weibo.com` that carries an `fid` query parameter maps to
`https://weibo.com/tv/show/<fid>?from=old_pc_videoshow`; otherwise a url
starting with `https://weibo.com/tv/show/` is returned unchanged; otherwise
the resolver reports "not a video"; and the literal example
`https://video.weibo.com/show?fid=1034:abcd123` maps to
`https://weibo.com/tv/show/1034:abcd123?from=old_pc_videoshow`. -/
theorem is_video_rules (u : WeiboUrl) :
    (∀ fid, strStartsWith u.url legacyHost = true → findFid u.url = some fid →
      is_video u =
        .ok (some ("https://weibo.com/tv/show/" ++ fid ++ "?from=old_pc_videoshow"))) ∧
    (strStartsWith u.url legacyHost = false →
      strStartsWith u.url canonicalShow = true → is_video u = .ok (some u.url)) ∧
    (strStartsWith u.url legacyHost = false →
      strStartsWith u.url canonicalShow = false → is_video u = .ok none) ∧
    is_video ⟨"", "https://video.weibo.com/show?fid=1034:abcd123"⟩ =
      .ok (some "https://weibo.com/tv/show/1034:abcd123?from=old_pc_videoshow") := by
  refine ⟨?_, ?_, ?_, ?_⟩
  · intro fid h1 h2
    simp [is_video, h1, h2]
  · intro h1 h2
    simp [is_video, h1, h2]
  · intro h1 h2
    simp [is_video, h1, h2]
  · rfl

/-- Witness for `is_video_rules`: the first rule applied at the literal
legacy-host example. -/
theorem is_video_rules_witness :
    is_video ⟨"t", "https://video.weibo.com/show?fid=1034:abcd123"⟩ =
      .ok (some "https://weibo.com/tv/show/1034:abcd123?from=old_pc_videoshow") :=
  (is_video_rules ⟨"t", "https://video.weibo.com/show?fid=1034:abcd123"⟩).1
    "1034:abcd123" (by decide) (by decide)

/-- C10: a link url that starts with `https://video.weibo.com` but lacks an
`fid` query parameter makes the Video Link Resolver panic (embedded as
`Except.error ()`), as on the concrete input `https://video.weibo.com`; and
every url whose text merely begins with that prefix takes the fid-extraction
path — the resolver never answers "not a video" for such a url. -/
theorem missing_fid_panics :
    is_video ⟨"", "https://video.weibo.com"⟩ = .error () ∧
    (∀ u : WeiboUrl, strStartsWith u.url legacyHost = true →
      findFid u.url = none → is_video u = .error ()) ∧
    (∀ u : WeiboUrl, strStartsWith u.url legacyHost = true →
      is_video u ≠ .ok none) := by
  refine ⟨rfl, ?_, ?_⟩
  · intro u h1 h2
    simp [is_video, h1, h2]
  · intro u h1
    cases h2 : findFid u.url <;> simp [is_video, h1, h2]

/-- Witness for `missing_fid_panics`: the quantified clause applied to a
concrete legacy-host url with a query but no `fid` parameter. -/
theorem missing_fid_panics_witness :
    is_video ⟨"t", "https://video.weibo.com/show?vid=7"⟩ = .error () :=
  missing_fid_panics.2.1 ⟨"t", "https://video.weibo.com/show?vid=7"⟩
    (by decide) (by decide)

end ArchiveWeibo

namespace ArchiveWeibo

/-- Helper: every action of the image loop is an image fetch or a write to
an `-img<NN>.jpg` path. -/
theorem downloadImagesAux_shape (fetch : String → Except String String)
    (wf : String → Bool) (pd pre : String) :
    ∀ (imgs : List String) (i : Nat) (a : Action),
      a ∈ (downloadImagesAux fetch wf pd pre i imgs).1 →
      (∃ u, a = Action.fetchImage u) ∨
      (∃ s c, a = Action.writeFile (pd ++ "/" ++ (pre ++ "-img" ++ s ++ ".jpg")) c) := by
  intro imgs
  induction imgs with
  | nil => intro i a ha; simp [downloadImagesAux] at ha
  | cons b rest ih =>
    intro i a ha
    rcases hfb : fetch (imgUrl b) with m | data
    · simp [downloadImagesAux, download_image, hfb] at ha
      exact Or.inl ⟨_, ha⟩
    · by_cases hwb : wf (pd ++ "/" ++ (pre ++ "-img" ++ pad2 (i + 1) ++ ".jpg")) = true
      · simp [downloadImagesAux, download_image, hfb, hwb] at ha
        rcases ha with ha | ha
        · exact Or.inl ⟨_, ha⟩
        · exact Or.inr ⟨pad2 (i + 1), data, ha⟩
      · simp [downloadImagesAux, download_image, hfb, hwb] at ha
        rcases ha with ha | ha | hmem
        · exact Or.inl ⟨_, ha⟩
        · exact Or.inr ⟨pad2 (i + 1), data, ha⟩
        · exact ih (i + 1) a hmem

/-- Helper: every action of the video loop is a helper invocation. -/
theorem downloadVideosAux_shape (hlp : String → String → String → Bool)
    (pd pre : String) :
    ∀ (us : List WeiboUrl) (i : Nat) (a : Action),
      a ∈ (downloadVideosAux hlp pd pre i us).1 →
      ∃ n o u, a = Action.runHelper n o u := by
  intro us
  induction us with
  | nil => intro i a ha; simp [downloadVideosAux] at ha
  | cons b rest ih =>
    intro i a ha
    rcases hv : is_video b with e | o
    · simp [downloadVideosAux, hv] at ha
    · rcases o with _ | v
      · simp only [downloadVideosAux, hv] at ha
        exact ih (i + 1) a ha
      · by_cases hh : hlp (pre ++ "-vid" ++ pad2 (i + 1)) pd v = true
        · simp [downloadVideosAux, download_video, hv, hh] at ha
          exact ⟨_, _, _, ha⟩
        · simp [downloadVideosAux, download_video, hv, hh] at ha
          rcases ha with rfl | hmem
          · exact ⟨_, _, _, rfl⟩
          · exact ih (i + 1) a hmem

/-- Helper: every action of one per-post download is the directory creation,
an image fetch, an image write, a helper invocation, or the manifest write. -/
theorem download_trace_mem (w : World) (dir : String) (p : WeiboPost) :
    ∀ a ∈ (download w dir p).1,
      a = .createDir (postDir dir p) ∨
      (∃ u, a = Action.fetchImage u) ∨
      (∃ s c, a = Action.writeFile
        (postDir dir p ++ "/" ++ (genPrefix p ++ "-img" ++ s ++ ".jpg")) c) ∨
      (∃ n o u, a = Action.runHelper n o u) ∨
      (∃ c, a = Action.writeFile (manifestPath (postDir dir p) (genPrefix p)) c) := by
  intro a ha
  rw [postDir]
  by_cases hd : w.dirExists (dir ++ "/" ++ genPrefix p) = true
  · simp [download, hd] at ha
  · by_cases hm : w.mkdirFails (dir ++ "/" ++ genPrefix p) = true
    · simp [download, hd, hm] at ha
      exact Or.inl ha
    · rcases h1 : (downloadImagesAux w.fetchImage w.writeFails (dir ++ "/" ++ genPrefix p)
          (genPrefix p) 0 p.pictures).2 with e | u
      · simp [download, hd, hm, h1] at ha
        rcases ha with rfl | hmem
        · exact Or.inl rfl
        · rcases downloadImagesAux_shape w.fetchImage w.writeFails _ _ _ _ _ hmem with
            ⟨u, rfl⟩ | ⟨s, c, rfl⟩
          · exact Or.inr (Or.inl ⟨u, rfl⟩)
          · exact Or.inr (Or.inr (Or.inl ⟨s, c, rfl⟩))
      · rcases h2 : (downloadVideosAux w.helperFails (dir ++ "/" ++ genPrefix p)
            (genPrefix p) 0 (p.urls.getD [])).2 with _ | e | _
        · by_cases h3 : w.writeFails ((dir ++ "/" ++ genPrefix p) ++ "/" ++
              (genPrefix p ++ "-content.txt")) = true
          all_goals {
            simp [download, hd, hm, h1, h2, manifestPath, h3] at ha
            rcases ha with rfl | (hmem | (hmem | rfl))
            · exact Or.inl rfl
            · rcases downloadImagesAux_shape w.fetchImage w.writeFails _ _ _ _ _ hmem with
                ⟨u, rfl⟩ | ⟨s, c, rfl⟩
              · exact Or.inr (Or.inl ⟨u, rfl⟩)
              · exact Or.inr (Or.inr (Or.inl ⟨s, c, rfl⟩))
            · obtain ⟨n, o, u, rfl⟩ := downloadVideosAux_shape w.helperFails _ _ _ _ _ hmem
              exact Or.inr (Or.inr (Or.inr (Or.inl ⟨n, o, u, rfl⟩)))
            · exact Or.inr (Or.inr (Or.inr (Or.inr ⟨_, rfl⟩)))
          }
        · simp [download, hd, hm, h1, h2] at ha
          rcases ha with rfl | (hmem | hmem)
          · exact Or.inl rfl
          · rcases downloadImagesAux_shape w.fetchImage w.writeFails _ _ _ _ _ hmem with
              ⟨u, rfl⟩ | ⟨s, c, rfl⟩
            · exact Or.inr (Or.inl ⟨u, rfl⟩)
            · exact Or.inr (Or.inr (Or.inl ⟨s, c, rfl⟩))
          · obtain ⟨n, o, u, rfl⟩ := downloadVideosAux_shape w.helperFails _ _ _ _ _ hmem
            exact Or.inr (Or.inr (Or.inr (Or.inl ⟨n, o, u, rfl⟩)))
        · simp [download, hd, hm, h1, h2] at ha
          rcases ha with rfl | (hmem | hmem)
          · exact Or.inl rfl
          · rcases downloadImagesAux_shape w.fetchImage w.writeFails _ _ _ _ _ hmem with
              ⟨u, rfl⟩ | ⟨s, c, rfl⟩
            · exact Or.inr (Or.inl ⟨u, rfl⟩)
            · exact Or.inr (Or.inr (Or.inl ⟨s, c, rfl⟩))
          · obtain ⟨n, o, u, rfl⟩ := downloadVideosAux_shape w.helperFails _ _ _ _ _ hmem
            exact Or.inr (Or.inr (Or.inr (Or.inl ⟨n, o, u, rfl⟩)))

/-- Helper: one applied action preserves all oracles except directory
existence. -/
theorem applyAction_fields (w : World) (a : Action) :
    (applyAction w a).mkdirFails = w.mkdirFails ∧
    (applyAction w a).fetchImage = w.fetchImage ∧
    (applyAction w a).writeFails = w.writeFails ∧
    (applyAction w a).helperFails = w.helperFails := by
  cases a with
  | createDir pth =>
    by_cases hm : w.mkdirFails pth <;> simp [applyAction, hm]
  | fetchImage u => exact ⟨rfl, rfl, rfl, rfl⟩
  | writeFile q c => exact ⟨rfl, rfl, rfl, rfl⟩
  | runHelper n o u => exact ⟨rfl, rfl, rfl, rfl⟩

/-- Helper: an applied trace preserves all oracles except directory
existence. -/
theorem applyActions_fields (w : World) (t : List Action) :
    (applyActions w t).mkdirFails = w.mkdirFails ∧
    (applyActions w t).fetchImage = w.fetchImage ∧
    (applyActions w t).writeFails = w.writeFails ∧
    (applyActions w t).helperFails = w.helperFails := by
  induction t generalizing w with
  | nil => exact ⟨rfl, rfl, rfl, rfl⟩
  | cons a t ih =>
    have h1 := applyAction_fields w a
    have h2 := ih (applyAction w a)
    rw [applyActions_cons]
    exact ⟨h2.1.trans h1.1, h2.2.1.trans h1.2.1, h2.2.2.1.trans h1.2.2.1,
      h2.2.2.2.trans h1.2.2.2⟩

/-- Helper: a trace that creates none of directory `q` leaves `q`'s
existence unchanged. -/
theorem applyActions_dirExists_other (w : World) (t : List Action) (q : String)
    (hq : ∀ x, Action.createDir x ∈ t → x ≠ q) :
    (applyActions w t).dirExists q = w.dirExists q := by
  induction t generalizing w with
  | nil => rfl
  | cons a t ih =>
    have h1 : (applyAction w a).dirExists q = w.dirExists q := by
      cases a with
      | createDir pth =>
        have hne : ¬(q = pth) := fun hh => hq pth (List.mem_cons_self _ _) hh.symm
        by_cases hm : w.mkdirFails pth <;> simp [applyAction, hm, hne]
      | fetchImage u => rfl
      | writeFile p c => rfl
      | runHelper n o u => rfl
    rw [applyActions_cons,
      ih (applyAction w a) (fun x hx => hq x (List.mem_cons_of_mem _ hx)), h1]

/-- Helper: a per-post download depends on the world only through the four
oracles and the existence of its own target directory. -/
theorem download_congr (w₁ w₂ : World) (dir : String) (q : WeiboPost)
    (hde : w₁.dirExists (postDir dir q) = w₂.dirExists (postDir dir q))
    (hmk : w₁.mkdirFails = w₂.mkdirFails) (hfi : w₁.fetchImage = w₂.fetchImage)
    (hwf : w₁.writeFails = w₂.writeFails) (hhf : w₁.helperFails = w₂.helperFails) :
    download w₁ dir q = download w₂ dir q := by
  rw [postDir] at hde
  simp only [download]
  rw [hde, hmk, hfi, hwf, hhf]

/-- Helper: the only directory one per-post download creates is its own
target directory. -/
theorem download_createDir_paths (w : World) (dir : String) (p : WeiboPost) :
    ∀ x, Action.createDir x ∈ (download w dir p).1 → x = postDir dir p := by
  intro x hx
  rcases download_trace_mem w dir p (Action.createDir x) hx with h | h | h | h | h
  · injection h
  · obtain ⟨u, hu⟩ := h; exact absurd hu (by simp)
  · obtain ⟨s, c, hc⟩ := h; exact absurd hc (by simp)
  · obtain ⟨n, o, u, hu⟩ := h; exact absurd hu (by simp)
  · obtain ⟨c, hc⟩ := h; exact absurd hc (by simp)

/-- C9 (amended): with the skip check passed and the directory created, the
per-post steps run strictly sequentially and a step's failure aborts the
remaining steps for that post only, leaving the directory present: an image
failure yields exactly the directory creation plus the partial image trace —
no helper invocation and no manifest write; a helper failure yields the
image trace plus the partial video trace and no manifest write; in both
cases the target directory exists afterwards; and a failing post does not
disturb a sibling post with a different target directory — the batch
continues, collects the failure, and completes. (The claim's further case of
a resolver failure is refuted separately: it panics the whole process.) -/
theorem per_post_failure_isolation (w : World) (dir : String) (p q : WeiboPost) (e : Err)
    (hd : w.dirExists (postDir dir p) = false)
    (hm : w.mkdirFails (postDir dir p) = false) :
    ((downloadImagesAux w.fetchImage w.writeFails (postDir dir p) (genPrefix p) 0
        p.pictures).2 = .error e →
      download w dir p =
        (Action.createDir (postDir dir p) ::
          (downloadImagesAux w.fetchImage w.writeFails (postDir dir p) (genPrefix p) 0
            p.pictures).1, .err e) ∧
      (∀ n o u, Action.runHelper n o u ∉ (download w dir p).1) ∧
      (∀ c, Action.writeFile (manifestPath (postDir dir p) (genPrefix p)) c ∉
        (download w dir p).1)) ∧
    ((downloadImagesAux w.fetchImage w.writeFails (postDir dir p) (genPrefix p) 0
        p.pictures).2 = .ok () →
      (downloadVideosAux w.helperFails (postDir dir p) (genPrefix p) 0
        (p.urls.getD [])).2 = .err e →
      download w dir p =
        (Action.createDir (postDir dir p) ::
          ((downloadImagesAux w.fetchImage w.writeFails (postDir dir p) (genPrefix p) 0
            p.pictures).1 ++
           (downloadVideosAux w.helperFails (postDir dir p) (genPrefix p) 0
            (p.urls.getD [])).1), .err e) ∧
      (∀ c, Action.writeFile (manifestPath (postDir dir p) (genPrefix p)) c ∉
        (download w dir p).1)) ∧
    ((applyActions w (download w dir p).1).dirExists (postDir dir p) = true) ∧
    ((download w dir p).2 = .err e → (download w dir q).2 = .ok →
      postDir dir p ≠ postDir dir q →
      orchestrate w dir [p, q] =
        ((download w dir p).1 ++ (download w dir q).1, some [e])) := by
  refine ⟨?_, ?_, ?_, ?_⟩
  · rw [postDir] at hd hm ⊢
    intro h1
    have hdl : download w dir p =
        (Action.createDir (dir ++ "/" ++ genPrefix p) ::
          (downloadImagesAux w.fetchImage w.writeFails (dir ++ "/" ++ genPrefix p)
            (genPrefix p) 0 p.pictures).1, .err e) := by
      simp [download, hd, hm, h1]
    refine ⟨hdl, ?_, ?_⟩
    · intro n o u hmem
      rw [hdl] at hmem
      simp at hmem
      rcases downloadImagesAux_shape w.fetchImage w.writeFails _ _ _ _ _ hmem with
        ⟨u', hu⟩ | ⟨s, c, hc⟩
      · exact absurd hu (by simp)
      · exact absurd hc (by simp)
    · intro c hmem
      rw [hdl] at hmem
      simp at hmem
      rcases downloadImagesAux_shape w.fetchImage w.writeFails _ _ _ _ _ hmem with
        ⟨u', hu⟩ | ⟨s, c0, hc⟩
      · exact absurd hu (by simp)
      · injection hc with hpath hcontent
        exact imgPath_ne_manifestPath _ _ s hpath.symm
  · rw [postDir] at hd hm ⊢
    intro h1 h2
    have hdl : download w dir p =
        (Action.createDir (dir ++ "/" ++ genPrefix p) ::
          ((downloadImagesAux w.fetchImage w.writeFails (dir ++ "/" ++ genPrefix p)
            (genPrefix p) 0 p.pictures).1 ++
           (downloadVideosAux w.helperFails (dir ++ "/" ++ genPrefix p)
            (genPrefix p) 0 (p.urls.getD [])).1), .err e) := by
      simp [download, hd, hm, h1, h2]
    refine ⟨hdl, ?_⟩
    intro c hmem
    rw [hdl] at hmem
    simp at hmem
    rcases hmem with hmem | hmem
    · rcases downloadImagesAux_shape w.fetchImage w.writeFails _ _ _ _ _ hmem with
        ⟨u', hu⟩ | ⟨s, c0, hc⟩
      · exact absurd hu (by simp)
      · injection hc with hpath hcontent
        exact imgPath_ne_manifestPath _ _ s hpath.symm
    · obtain ⟨n, o, u, hu⟩ := downloadVideosAux_shape w.helperFails _ _ _ _ _ hmem
      exact absurd hu (by simp)
  · obtain ⟨rest, hr⟩ := download_trace_head w dir p hd hm
    rw [hr, applyActions_cons]
    apply applyActions_dirExists_mono
    have hm' := hm
    rw [postDir] at hm'
    rw [postDir]
    simp [applyAction, hm']
  · intro hp hq hne
    have hfields := applyActions_fields w (download w dir p).1
    have hde : (applyActions w (download w dir p).1).dirExists (postDir dir q) =
        w.dirExists (postDir dir q) :=
      applyActions_dirExists_other w _ _ (fun x hx => by
        rw [download_createDir_paths w dir p x hx]; exact hne)
    have hcongr : download (applyActions w (download w dir p).1) dir q =
        download w dir q :=
      download_congr _ _ dir q hde hfields.1 hfields.2.1 hfields.2.2.1 hfields.2.2.2
    simp [orchestrate, hp, hq, hcongr]

/-- Counterexample for C9 as stated: a resolver failure (a legacy-host link
with no `fid`) does not abort the remaining steps "for that post only" — the
download panics and the whole batch aborts with no collected-error report,
taking the sibling post down with it. -/
theorem resolver_panic_aborts_batch :
    download allOkWorld "out" badVidPost =
      ([Action.createDir (postDir "out" badVidPost)], .panicked) ∧
    (orchestrate allOkWorld "out" [badVidPost, vidPost 9]).2 = none :=
  ⟨rfl, rfl⟩

/-- Witness for `per_post_failure_isolation`: a concrete batch of a
helper-failing post and a fully succeeding post. -/
theorem per_post_failure_isolation_witness :
    orchestrate helperFailWorld "out" [vidPost 1, wPost] =
      ((download helperFailWorld "out" (vidPost 1)).1 ++
        (download helperFailWorld "out" wPost).1,
       some [Err.unableToDownload "https://weibo.com/tv/show/x"]) :=
  (per_post_failure_isolation helperFailWorld "out" (vidPost 1) wPost
    (.unableToDownload "https://weibo.com/tv/show/x") rfl rfl).2.2.2 rfl rfl (by decide)

/-- Helper: one step of `downloadSeq`. -/
theorem downloadSeq_cons (w : World) (dir : String) (p : WeiboPost) (ps : List WeiboPost) :
    downloadSeq w dir (p :: ps) =
      download w dir p :: downloadSeq (applyActions w (download w dir p).1) dir ps := rfl

/-- Helper: a panic-free batch performs every post's download in order and
collects exactly the failed results' errors. -/
theorem orchestrate_eq_seq (dir : String) :
    ∀ (posts : List WeiboPost) (w : World),
      (∀ r ∈ downloadSeq w dir posts, r.2 ≠ .panicked) →
      orchestrate w dir posts =
        ((downloadSeq w dir posts).flatMap Prod.fst,
         some ((downloadSeq w dir posts).filterMap fun r => errOf r.2)) := by
  intro posts
  induction posts with
  | nil => intro w h; rfl
  | cons p ps ih =>
    intro w h
    have htail : ∀ r ∈ downloadSeq (applyActions w (download w dir p).1) dir ps,
        r.2 ≠ .panicked := fun r hr => h r (by
      rw [downloadSeq_cons]; exact List.mem_cons_of_mem _ hr)
    rcases hr : (download w dir p).2 with _ | e | _
    · simp [orchestrate, downloadSeq_cons, hr, errOf,
        ih (applyActions w (download w dir p).1) htail]
    · simp [orchestrate, downloadSeq_cons, hr, errOf,
        ih (applyActions w (download w dir p).1) htail]
    · exact absurd hr (h (download w dir p) (by
        rw [downloadSeq_cons]; exact List.mem_cons_self _ _))

/-- C7 (amended): on a panic-free batch the orchestrator never raises for an
individual post's failure — it runs the per-post downloader for all posts,
collects every failure as its error value (the value is not paired with the
failing post's id) without short-circuiting, reports the collection only
after the batch completes, and when the listing succeeded `main`'s outcome
is `completed` — returning `Ok(())` — irrespective of the collected
download failures. -/
theorem orchestrator_collects_failures (w : World) (dir : String)
    (posts : List WeiboPost)
    (hnp : ∀ r ∈ downloadSeq w dir posts, r.2 ≠ .panicked) :
    orchestrate w dir posts =
      ((downloadSeq w dir posts).flatMap Prod.fst,
       some ((downloadSeq w dir posts).filterMap fun r => errOf r.2)) ∧
    ∀ (net : FetchNet) (uid : Nat) (cookie : String) (fuel : Nat) (reqs : List Request),
      get_posts net uid cookie fuel = some (reqs, .ok posts) →
      mainModel net w uid cookie dir fuel =
        some (.completed reqs ((downloadSeq w dir posts).flatMap Prod.fst)
          ((downloadSeq w dir posts).filterMap fun r => errOf r.2)) := by
  have h1 := orchestrate_eq_seq dir posts w hnp
  refine ⟨h1, ?_⟩
  intro net uid cookie fuel reqs hg
  simp [mainModel, hg, h1]

/-- Witness for `orchestrator_collects_failures`: a concrete failing batch. -/
theorem orchestrator_collects_failures_witness :
    orchestrate helperFailWorld "out" [vidPost 1] =
      ((downloadSeq helperFailWorld "out" [vidPost 1]).flatMap Prod.fst,
       some ((downloadSeq helperFailWorld "out" [vidPost 1]).filterMap fun r => errOf r.2)) :=
  (orchestrator_collects_failures helperFailWorld "out" [vidPost 1] (by decide)).1

/-- Counterexample for C7 as stated: the collected failures are bare error
values, not (post_id, cause) pairs — two single-post batches over posts that
differ only in their id produce identical collected output, so the output
cannot identify the failing post. -/
theorem errors_lack_post_id :
    (orchestrate helperFailWorld "out" [vidPost 1]).2 =
      some [Err.unableToDownload "https://weibo.com/tv/show/x"] ∧
    (orchestrate helperFailWorld "out" [vidPost 2]).2 =
      some [Err.unableToDownload "https://weibo.com/tv/show/x"] ∧
    (vidPost 1).id ≠ (vidPost 2).id :=
  ⟨rfl, rfl, by decide⟩

/-- Helper: every reachable scheduler state respects the in-flight bound and
conserves the number of posts. -/
theorem sched_invariant (n : Nat) (s : SchedState) (h : SchedReachable n s) :
    s.inflight ≤ inFlightBound ∧ s.queued + s.inflight + s.done = n := by
  induction h with
  | refl => exact ⟨by simp [inFlightBound], by simp⟩
  | tail hsteps hstep ih =>
    obtain ⟨ih1, ih2⟩ := ih
    cases hstep with
    | start hq hb => exact ⟨by simpa using hb, by simp; omega⟩
    | finish hf => exact ⟨by simp; omega, by simp; omega⟩

/-- Helper: a non-final state always has an enabled step (no deadlock). -/
theorem sched_progress (n : Nat) (s : SchedState)
    (hsum : s.queued + s.inflight + s.done = n)
    (hne : s ≠ ⟨0, 0, n⟩) : ∃ t, SchedStep s t := by
  by_cases hq : 0 < s.queued
  · by_cases hb : s.inflight < inFlightBound
    · exact ⟨_, .start s hq hb⟩
    · have hf : 0 < s.inflight := by simp [inFlightBound] at hb ⊢; omega
      exact ⟨_, .finish s hf⟩
  · by_cases hf : 0 < s.inflight
    · exact ⟨_, .finish s hf⟩
    · exfalso
      apply hne
      cases s with
      | mk q i d =>
        simp at hq hf
        subst hq
        subst hf
        simp at hsum
        simp [hsum]

/-- Helper: from any state consistent with a batch of `n` posts, the
scheduler can run to completion — every step decreases `2·queued +
inflight`, so every maximal run ends with all `n` done. -/
theorem sched_completes (n : Nat) : ∀ (m : Nat) (s : SchedState),
    2 * s.queued + s.inflight ≤ m → s.queued + s.inflight + s.done = n →
    Relation.ReflTransGen SchedStep s ⟨0, 0, n⟩ := by
  intro m
  induction m with
  | zero =>
    intro s hm hsum
    have hs : s = ⟨0, 0, n⟩ := by
      cases s with
      | mk q i d =>
        simp at hm hsum ⊢
        omega
    rw [hs]
  | succ k ih =>
    intro s hm hsum
    by_cases hs : s = ⟨0, 0, n⟩
    · rw [hs]
    · obtain ⟨t, ht⟩ := sched_progress n s hsum hs
      have hdec : 2 * t.queued + t.inflight ≤ k := by
        cases ht with
        | start hq hb => simp; omega
        | finish hf => simp; omega
      have hsum2 : t.queued + t.inflight + t.done = n := by
        cases ht with
        | start hq hb => simp; omega
        | finish hf => simp; omega
      exact Relation.ReflTransGen.head ht (ih t hdec hsum2)

/-- C4: in the orchestrator's admission-controlled schedule for a batch of
`n` posts, every reachable state has at most 20 downloads in flight; a step
that starts a new download is possible only when strictly fewer than 20 are
in flight (a slot is free); no reachable state other than all-done is
stuck; and from every reachable state the schedule can run on to the
all-done state — the orchestrator returns only there, after waiting for all
`n` posts. -/
theorem bounded_concurrency (n : Nat) (s : SchedState) (h : SchedReachable n s) :
    s.inflight ≤ inFlightBound ∧
    s.queued + s.inflight + s.done = n ∧
    (∀ t : SchedState, SchedStep s t → s.inflight < t.inflight →
      s.inflight < inFlightBound) ∧
    (s ≠ ⟨0, 0, n⟩ → ∃ t, SchedStep s t) ∧
    Relation.ReflTransGen SchedStep s ⟨0, 0, n⟩ := by
  obtain ⟨h1, h2⟩ := sched_invariant n s h
  refine ⟨h1, h2, ?_, fun hne => sched_progress n s h2 hne,
    sched_completes n (2 * s.queued + s.inflight) s (le_refl _) h2⟩
  intro t ht hlt
  cases ht with
  | start hq hb => exact hb
  | finish hf => simp at hlt; omega

/-- Witness for `bounded_concurrency`: the initial state of a 100-post
batch. -/
theorem bounded_concurrency_witness :
    (⟨100, 0, 0⟩ : SchedState).inflight ≤ inFlightBound ∧
    (⟨100, 0, 0⟩ : SchedState).queued + (⟨100, 0, 0⟩ : SchedState).inflight +
      (⟨100, 0, 0⟩ : SchedState).done = 100 ∧
    (∀ t : SchedState, SchedStep ⟨100, 0, 0⟩ t →
      (⟨100, 0, 0⟩ : SchedState).inflight < t.inflight →
      (⟨100, 0, 0⟩ : SchedState).inflight < inFlightBound) ∧
    ((⟨100, 0, 0⟩ : SchedState) ≠ ⟨0, 0, 100⟩ → ∃ t, SchedStep ⟨100, 0, 0⟩ t) ∧
    Relation.ReflTransGen SchedStep ⟨100, 0, 0⟩ ⟨0, 0, 100⟩ :=
  bounded_concurrency 100 ⟨100, 0, 0⟩ Relation.ReflTransGen.refl

end ArchiveWeibo
